import Mathlib

/-!
Verification of the idempotent upsert loader of the travel-data platform.

The definitions below are a shallow embedding of
`src/pipelines/scrapping_dest_details/bigquery_loader.py` (class
`BigQueryLoader`) and of
`src/pipelines/weather_api_pipeline/bigquery_loader.py`
(method `load_dataframe`).

Modelling conventions:
* a table is a list of rows; a row is the natural-key value
  (column `destination_name`, a string) together with the list of
  non-key column values in schema order;
* a cell is `Option α` — `none` is SQL NULL;
* the SQL predicate `target.col != source.col` produced by
  `_build_merge_query` is given BigQuery's three-valued semantics
  (`TV` below): comparing against NULL yields `TV.u` (unknown), and a
  `WHEN MATCHED AND (...)` branch fires only when the condition is
  `TV.t`;
* remote BigQuery calls are modelled by explicit state passing on a
  `Store`, with a `Faults` record injecting an exception at any of the
  remote calls the loader issues; Python's `try`/`except` blocks become
  `Except` values that the orchestrator catches;
* the `Store.log` field records the staging-, merge- and load-related
  remote calls the loader issues, in order.
-/

namespace TravelData

/-- Three-valued SQL truth values: true, false, unknown (NULL). -/
inductive TV where
  | t : TV
  | f : TV
  | u : TV
deriving Repr, DecidableEq

/-- SQL OR on three-valued logic, used for the OR-joined
`match_conditions` of `_build_merge_query`. -/
def orTV : TV → TV → TV
  | TV.t, _ => TV.t
  | _, TV.t => TV.t
  | TV.f, TV.f => TV.f
  | _, _ => TV.u

/-- A cell of a table: `none` is SQL NULL. -/
abbrev Cell (α : Type) := Option α

/-- BigQuery semantics of `x != y`: comparing with NULL yields
unknown, otherwise ordinary disequality. -/
def neqTV {α : Type} [DecidableEq α] : Cell α → Cell α → TV
  | some a, some b => if a = b then TV.f else TV.t
  | _, _ => TV.u

/-- One table row: the `destination_name` key plus the non-key cells in
schema order (the 16 non-key columns of `get_schema`). -/
structure Row (α : Type) where
  key : String
  cells : List (Cell α)
deriving Repr, DecidableEq

/-- The fixed column schema of `get_schema` (name list, key first). -/
def schemaColumns : List String :=
  ["destination_name", "description", "country", "latitude", "longitude",
   "population_count", "population_year", "timezone", "languages",
   "climate", "image_url", "sections", "area_km2", "region",
   "attractions_count", "attractions", "ingestion_timestamp"]

/-- The non-key columns used by `_build_merge_query`
(`column_names`): every schema field except `destination_name`. -/
def mergeColumns : List String :=
  schemaColumns.filter (fun c => c ≠ "destination_name")

/-- The OR-joined `WHEN MATCHED` condition of `_build_merge_query`:
`target.col != source.col` OR-combined over the non-key columns,
evaluated pairwise over the two cell lists in schema order. -/
def matchCond {α : Type} [DecidableEq α] : List (Cell α) → List (Cell α) → TV
  | tc :: ts, sc :: ss => orTV (neqTV tc sc) (matchCond ts ss)
  | _, _ => TV.f

/-- Whether the `WHEN MATCHED AND (match_conditions)` branch fires for
a matched target/source row pair: only when the condition is `TV.t`. -/
def shouldUpdate {α : Type} [DecidableEq α] (t s : Row α) : Bool :=
  matchCond t.cells s.cells == TV.t

/-- Effect of the MERGE statement on one destination row: join with the
staging rows on the key; if matched and the OR-condition is true,
`UPDATE SET` replaces every non-key column with the source value,
otherwise the row is untouched. -/
def mergeRow {α : Type} [DecidableEq α] (source : List (Row α)) (t : Row α) : Row α :=
  match source.find? (fun s => s.key == t.key) with
  | none => t
  | some s => if shouldUpdate t s then ⟨t.key, s.cells⟩ else t

/-- Effect of the MERGE statement built by `_build_merge_query` on the
whole destination table: matched rows are updated per `mergeRow`, and
staging rows whose key matches no destination row are inserted
(`WHEN NOT MATCHED THEN INSERT`). The statement has no
`WHEN NOT MATCHED BY SOURCE` branch, so no destination row is deleted. -/
def mergeTable {α : Type} [DecidableEq α] (source target : List (Row α)) : List (Row α) :=
  target.map (mergeRow source) ++
    source.filter (fun s => target.all (fun t => !(t.key == s.key)))

/-- The staging-, merge- and load-related remote calls the loader
issues; `Store.log` records them in order. (`delete_table` on the
staging table appears twice in the source: the initial
try-delete inside `_create_temp_table` is `deleteStaging`, the final
cleanup inside `_execute_merge` is `dropStaging`.) -/
inductive RCall where
  | deleteStaging : RCall
  | createStaging : RCall
  | loadStaging : RCall
  | mergeStmt : RCall
  | getDestTable : RCall
  | dropStaging : RCall
  | loadDest : RCall
deriving Repr, DecidableEq

/-- The exception kinds a remote call can raise (spec taxonomy §7,
plus the post-merge `get_table` read and the final staging deletion,
which in the source raise ordinary client exceptions). -/
inductive Err where
  | provisioningErr : Err
  | stagingErr : Err
  | mergeErr : Err
  | getTableErr : Err
  | cleanupErr : Err
  | loadErr : Err
deriving Repr, DecidableEq

/-- The observable remote state one `BigQueryLoader` instance acts on:
the destination table's rows, whether the staging table
(`table_id + "_temp"`) exists and its rows, the row count the loader
reported after a successful merge, and the log of issued calls. -/
structure Store (α : Type) where
  destRows : List (Row α)
  stagingExists : Bool
  stagingRows : List (Row α)
  reportedCount : Option Nat
  log : List RCall
deriving Repr, DecidableEq

/-- Fault injection: each flag makes the corresponding remote call in
the loader raise an exception. -/
structure Faults where
  ensure_dataset_fault : Bool
  ensure_table_fault : Bool
  delete_temp_fault : Bool
  create_temp_fault : Bool
  load_temp_fault : Bool
  merge_fault : Bool
  get_table_fault : Bool
  cleanup_fault : Bool
  load_dest_fault : Bool
deriving Repr, DecidableEq

/-- The fault-free execution environment. -/
def noFaults : Faults :=
  ⟨false, false, false, false, false, false, false, false, false⟩

/-- Embedding of `_ensure_dataset_exists`: get-or-create the dataset;
a creation failure propagates. The dataset is not part of `Store`, so
only the possible exception is modelled. -/
def ensure_dataset_exists {α : Type} (fl : Faults) (st : Store α) :
    Store α × Except Err Unit :=
  if fl.ensure_dataset_fault then (st, Except.error Err.provisioningErr)
  else (st, Except.ok ())

/-- Embedding of `_ensure_table_exists`: `create_table(..., exists_ok=True)`
on the destination table; a failure propagates. -/
def ensure_table_exists {α : Type} (fl : Faults) (st : Store α) :
    Store α × Except Err Unit :=
  if fl.ensure_table_fault then (st, Except.error Err.provisioningErr)
  else (st, Except.ok ())

/-- Embedding of `_create_temp_table`:
1. `try: delete_table(temp) except Exception: log` — the deletion is
   attempted and every exception from it is swallowed (on a swallowed
   failure the staging table, if present, survives);
2. `create_table(temp)` (no `exists_ok`) — raises if injected fault or
   if the staging table still exists;
3. `load_table_from_dataframe` with `WRITE_TRUNCATE`, then
   `load_job.result()` — raises on injected fault, else the staging
   rows become exactly the batch. -/
def create_temp_table {α : Type} [DecidableEq α] (fl : Faults)
    (df : List (Row α)) (st : Store α) : Store α × Except Err Unit :=
  let st1 :=
    if fl.delete_temp_fault then
      { st with log := st.log ++ [RCall.deleteStaging] }
    else
      { st with stagingExists := false, stagingRows := ([] : List (Row α)),
                log := st.log ++ [RCall.deleteStaging] }
  if fl.create_temp_fault || st1.stagingExists then
    ({ st1 with log := st1.log ++ [RCall.createStaging] },
     Except.error Err.stagingErr)
  else
    let st2 := { st1 with stagingExists := true, stagingRows := ([] : List (Row α)),
                          log := st1.log ++ [RCall.createStaging] }
    if fl.load_temp_fault then
      ({ st2 with log := st2.log ++ [RCall.loadStaging] },
       Except.error Err.stagingErr)
    else
      ({ st2 with stagingRows := df, log := st2.log ++ [RCall.loadStaging] },
       Except.ok ())

/-- Embedding of `_execute_merge`: run the MERGE statement
(`merge_job.result()` may raise; on success the destination becomes
`mergeTable stagingRows destRows` atomically), then `get_table` on the
destination to read `num_rows`, then `delete_table` on the staging
table; only after all three does it return the row count. An exception
at a later call leaves the effects of the earlier calls in place. -/
def execute_merge {α : Type} [DecidableEq α] (fl : Faults) (st : Store α) :
    Store α × Except Err Nat :=
  let stq := { st with log := st.log ++ [RCall.mergeStmt] }
  if fl.merge_fault then (stq, Except.error Err.mergeErr)
  else
    let st1 := { stq with destRows := mergeTable stq.stagingRows stq.destRows }
    let st2 := { st1 with log := st1.log ++ [RCall.getDestTable] }
    if fl.get_table_fault then (st2, Except.error Err.getTableErr)
    else
      let n := st2.destRows.length
      let st3 := { st2 with log := st2.log ++ [RCall.dropStaging] }
      if fl.cleanup_fault then (st3, Except.error Err.cleanupErr)
      else
        ({ st3 with stagingExists := false, stagingRows := ([] : List (Row α)) },
         Except.ok n)

/-- Embedding of the try-block of `upload_with_merge`: ensure dataset
and table, short-circuit on an empty batch returning the current
`success` value (`False`), otherwise stage the batch, execute the
merge and return `True`; any step's exception propagates out of the
block together with the state reached so far. On full success the
returned row count is recorded (the `logger.info` of `num_rows`). -/
def upload_with_merge_try {α : Type} [DecidableEq α] (fl : Faults)
    (df : List (Row α)) (st : Store α) : Store α × Except Err Bool :=
  match ensure_dataset_exists fl st with
  | (st1, Except.error e) => (st1, Except.error e)
  | (st1, Except.ok ()) =>
    match ensure_table_exists fl st1 with
    | (st2, Except.error e) => (st2, Except.error e)
    | (st2, Except.ok ()) =>
      if df.isEmpty then (st2, Except.ok false)
      else
        match create_temp_table fl df st2 with
        | (st3, Except.error e) => (st3, Except.error e)
        | (st3, Except.ok ()) =>
          match execute_merge fl st3 with
          | (st4, Except.error e) => (st4, Except.error e)
          | (st4, Except.ok n) =>
            ({ st4 with reportedCount := some n }, Except.ok true)

/-- Embedding of `upload_with_merge`: the try-block wrapped in
`except Exception: log; return success` — at every point where an
exception can be raised the local `success` variable is still `False`,
so the handler returns `false`. -/
def upload_with_merge {α : Type} [DecidableEq α] (fl : Faults)
    (df : List (Row α)) (st : Store α) : Store α × Bool :=
  match upload_with_merge_try fl df st with
  | (st1, Except.ok b) => (st1, b)
  | (st1, Except.error _) => (st1, false)

/-- Embedding of the try-block of `append_data`: ensure dataset and
table, short-circuit on an empty batch returning `False`, otherwise a
single `WRITE_APPEND` load job into the destination (rows added
unconditionally) and return `True`; exceptions propagate. -/
def append_data_try {α : Type} [DecidableEq α] (fl : Faults)
    (df : List (Row α)) (st : Store α) : Store α × Except Err Bool :=
  match ensure_dataset_exists fl st with
  | (st1, Except.error e) => (st1, Except.error e)
  | (st1, Except.ok ()) =>
    match ensure_table_exists fl st1 with
    | (st2, Except.error e) => (st2, Except.error e)
    | (st2, Except.ok ()) =>
      if df.isEmpty then (st2, Except.ok false)
      else
        let st3 := { st2 with log := st2.log ++ [RCall.loadDest] }
        if fl.load_dest_fault then (st3, Except.error Err.loadErr)
        else ({ st3 with destRows := st3.destRows ++ df }, Except.ok true)

/-- Embedding of `append_data`: the try-block wrapped in
`except Exception: log; return success`, where `success` is still
`False` at every point an exception can be raised. -/
def append_data {α : Type} [DecidableEq α] (fl : Faults)
    (df : List (Row α)) (st : Store α) : Store α × Bool :=
  match append_data_try fl df st with
  | (st1, Except.ok b) => (st1, b)
  | (st1, Except.error _) => (st1, false)

/-- Fault injection for the weather pipeline loader: the load job or
the subsequent `get_table` read raises one of the caught exception
types (`ValueError`, `GoogleAPIError`). -/
structure WeatherFaults where
  load_fault : Bool
  get_table_fault : Bool
deriving Repr, DecidableEq

/-- Observable outcome of the weather loader: the returned boolean and
whether a load job was issued. -/
structure WeatherOutcome where
  success : Bool
  loadJobIssued : Bool
deriving Repr, DecidableEq

/-- Embedding of `load_dataframe` of
`src/pipelines/weather_api_pipeline/bigquery_loader.py`: `None` or an
empty DataFrame logs a warning and returns `True` without issuing a
load job; otherwise a `WRITE_APPEND` load job runs and `get_table`
reads the row count, with the caught exception types converted to
`False`. -/
def load_dataframe {ρ : Type} (fl : WeatherFaults) (data : Option (List ρ)) :
    WeatherOutcome :=
  match data with
  | none => ⟨true, false⟩
  | some rows =>
    if rows.isEmpty then ⟨true, false⟩
    else if fl.load_fault then ⟨false, true⟩
    else if fl.get_table_fault then ⟨false, true⟩
    else ⟨true, true⟩

/-- Concrete batch row: the spec's scenario §8.6 (`Paris`, population
2148271), over integer-valued cells and a one-column non-key schema
slice. -/
def row0 : Row Int := ⟨"Paris", [some 2148271]⟩

/-- The spec scenario's second batch row: `Paris` with the population
changed to 2200000. -/
def row1 : Row Int := ⟨"Paris", [some 2200000]⟩

/-- A second destination row with a different key. -/
def rowB : Row Int := ⟨"Berlin", [some 3645000]⟩

/-- An initially empty remote store: empty destination, no staging
table, nothing reported, empty call log. -/
def store0 : Store Int := ⟨[], false, [], none, []⟩

/-- Fault injection forcing a `MergeError` at the merge statement
only. -/
def onlyMergeFault : Faults :=
  ⟨false, false, false, false, false, true, false, false, false⟩

/-- Fault injection making only the final staging-table deletion (the
cleanup inside `_execute_merge`) raise. -/
def onlyCleanupFault : Faults :=
  ⟨false, false, false, false, false, false, false, true, false⟩

/-- Fault injection making only the initial staging-table deletion
attempt inside `_create_temp_table` raise (a non-not-found error such
as permission denied). -/
def onlyDeleteTempFault : Faults :=
  ⟨false, false, true, false, false, false, false, false, false⟩

/-- Fault injection making only the append path's load job raise. -/
def onlyLoadDestFault : Faults :=
  ⟨false, false, false, false, false, false, false, false, true⟩

/-! Helper lemmas about the three-valued merge condition. -/

theorem orTV_eq_t_iff (a b : TV) : orTV a b = TV.t ↔ a = TV.t ∨ b = TV.t := by
  cases a <;> cases b <;> simp [orTV]

theorem neqTV_self_ne_t {α : Type} [DecidableEq α] (a : Cell α) :
    neqTV a a ≠ TV.t := by
  cases a <;> simp [neqTV]

theorem matchCond_self_ne_t {α : Type} [DecidableEq α] :
    ∀ c : List (Cell α), matchCond c c ≠ TV.t := by
  intro c
  induction c with
  | nil => simp [matchCond]
  | cons a l ih =>
    simp only [matchCond]
    intro h
    rcases (orTV_eq_t_iff (neqTV a a) (matchCond l l)).mp h with h1 | h1
    · exact neqTV_self_ne_t a h1
    · exact ih h1

theorem shouldUpdate_of_cells_eq {α : Type} [DecidableEq α] {t s : Row α}
    (h : t.cells = s.cells) : shouldUpdate t s = false := by
  unfold shouldUpdate
  rw [h]
  simpa using matchCond_self_ne_t s.cells

/-! Helper lemmas about `mergeRow` and `mergeTable`. -/

theorem mergeRow_key {α : Type} [DecidableEq α] (source : List (Row α)) (t : Row α) :
    (mergeRow source t).key = t.key := by
  unfold mergeRow
  cases source.find? (fun s => s.key == t.key) with
  | none => rfl
  | some s => by_cases h : shouldUpdate t s <;> simp [h]

theorem mergeRow_of_no_match {α : Type} [DecidableEq α] {source : List (Row α)}
    {t : Row α} (h : ∀ s ∈ source, s.key ≠ t.key) : mergeRow source t = t := by
  unfold mergeRow
  have hf : source.find? (fun s => s.key == t.key) = none := by
    apply List.find?_eq_none.mpr
    intro s hs
    simp [h s hs]
  rw [hf]

theorem find?_key_of_nodup {α : Type} [DecidableEq α] :
    ∀ (source : List (Row α)) (s : Row α), (source.map Row.key).Nodup →
      s ∈ source → source.find? (fun x => x.key == s.key) = some s := by
  intro source
  induction source with
  | nil => intro s _ hs; cases hs
  | cons a tl ih =>
    intro s hnd hs
    simp only [List.map_cons, List.nodup_cons] at hnd
    rcases List.mem_cons.mp hs with h | h
    · subst h
      simp [List.find?]
    · have hne : a.key ≠ s.key := by
        intro he
        exact hnd.1 (he ▸ List.mem_map.mpr ⟨s, h, rfl⟩)
      rw [List.find?_cons_of_neg]
      · exact ih s hnd.2 h
      · simp [hne]

theorem mergeRow_self_of_mem_nodup {α : Type} [DecidableEq α]
    {source : List (Row α)} {s : Row α} (hnd : (source.map Row.key).Nodup)
    (hs : s ∈ source) : mergeRow source s = s := by
  unfold mergeRow
  rw [find?_key_of_nodup source s hnd hs]
  simp [shouldUpdate_of_cells_eq rfl]

theorem mergeRow_idem {α : Type} [DecidableEq α] (source : List (Row α))
    (t : Row α) : mergeRow source (mergeRow source t) = mergeRow source t := by
  cases hf : source.find? (fun s => s.key == t.key) with
  | none =>
    have h1 : mergeRow source t = t := by unfold mergeRow; rw [hf]
    rw [h1, h1]
  | some s =>
    have h1 : mergeRow source t
        = if shouldUpdate t s then ⟨t.key, s.cells⟩ else t := by
      unfold mergeRow; rw [hf]
    by_cases hu : shouldUpdate t s
    · have h2 : mergeRow source t = ⟨t.key, s.cells⟩ := by rw [h1]; simp [hu]
      rw [h2]
      unfold mergeRow
      dsimp only
      rw [hf]
      simp [shouldUpdate_of_cells_eq rfl]
    · have h2 : mergeRow source t = t := by rw [h1]; simp [hu]
      rw [h2, h1]
      simp [hu]

theorem mergeTable_nil_target {α : Type} [DecidableEq α] (source : List (Row α)) :
    mergeTable source [] = source := by
  unfold mergeTable
  simp

theorem map_eq_self_of_fix {β : Type} {f : β → β} :
    ∀ {l : List β}, (∀ a ∈ l, f a = a) → l.map f = l := by
  intro l
  induction l with
  | nil => intro _; rfl
  | cons a tl ih =>
    intro h
    simp only [List.map_cons]
    rw [h a (List.mem_cons_self a tl), ih (fun b hb => h b (List.mem_cons_of_mem a hb))]

theorem mergeTable_idem {α : Type} [DecidableEq α] (source target : List (Row α))
    (hnd : (source.map Row.key).Nodup) :
    mergeTable source (mergeTable source target) = mergeTable source target := by
  have hmap : (mergeTable source target).map (mergeRow source) = mergeTable source target := by
    apply map_eq_self_of_fix
    intro a ha
    unfold mergeTable at ha
    rcases List.mem_append.mp ha with ha | ha
    · rcases List.mem_map.mp ha with ⟨t, _, rfl⟩
      exact mergeRow_idem source t
    · exact mergeRow_self_of_mem_nodup hnd (List.mem_of_mem_filter ha)
  have hfil : source.filter
      (fun s => (mergeTable source target).all (fun t => !(t.key == s.key))) = [] := by
    apply List.filter_eq_nil_iff.mpr
    intro s hs
    simp only [List.all_eq_true, Bool.not_eq_true', not_forall]
    by_cases hex : ∃ t ∈ target, t.key = s.key
    · rcases hex with ⟨t, ht, hkey⟩
      refine ⟨mergeRow source t, ?_, ?_⟩
      · exact List.mem_append.mpr (Or.inl (List.mem_map.mpr ⟨t, ht, rfl⟩))
      · simp [mergeRow_key, hkey]
    · push_neg at hex
      refine ⟨s, ?_, ?_⟩
      · refine List.mem_append.mpr (Or.inr ?_)
        apply List.mem_filter.mpr
        refine ⟨hs, ?_⟩
        simp only [List.all_eq_true, Bool.not_eq_true']
        intro t ht
        simp [hex t ht]
      · simp
  have hout : mergeTable source (mergeTable source target)
      = (mergeTable source target).map (mergeRow source)
        ++ source.filter
            (fun s => (mergeTable source target).all (fun t => !(t.key == s.key))) := rfl
  rw [hout, hmap, hfil, List.append_nil]

theorem filter_key_head {α : Type} [DecidableEq α] (a : Row α) (tl : List (Row α))
    (hnotin : a.key ∉ tl.map Row.key) :
    (a :: tl).filter (fun x => x.key == a.key) = [a] := by
  rw [List.filter_cons_of_pos]
  · have htl : tl.filter (fun x => x.key == a.key) = [] := by
      apply List.filter_eq_nil_iff.mpr
      intro x hx
      have hne : x.key ≠ a.key := fun he => hnotin (he ▸ List.mem_map.mpr ⟨x, hx, rfl⟩)
      simp [hne]
    rw [htl]
  · simp

theorem filter_key_of_nodup {α : Type} [DecidableEq α] :
    ∀ (l : List (Row α)) (r : Row α), (l.map Row.key).Nodup → r ∈ l →
      l.filter (fun x => x.key == r.key) = [r] := by
  intro l
  induction l with
  | nil => intro r _ h; cases h
  | cons a tl ih =>
    intro r hnd hr
    simp only [List.map_cons, List.nodup_cons] at hnd
    rcases List.mem_cons.mp hr with h | h
    · rw [h]
      exact filter_key_head a tl hnd.1
    · have hne : a.key ≠ r.key := by
        intro he
        exact hnd.1 (he ▸ List.mem_map.mpr ⟨r, h, rfl⟩)
      rw [List.filter_cons_of_neg]
      · exact ih r hnd.2 h
      · simp [hne]

/-- Computation of the fault-free upsert run on a non-empty batch: it
succeeds, the destination becomes the merge of the batch into the old
destination rows, the reported count is the new destination size, and
the staging table is gone. -/
theorem upload_with_merge_noFaults_run {α : Type} [DecidableEq α]
    (df : List (Row α)) (st : Store α) (h : df ≠ []) :
    (upload_with_merge noFaults df st).2 = true
    ∧ (upload_with_merge noFaults df st).1.destRows = mergeTable df st.destRows
    ∧ (upload_with_merge noFaults df st).1.reportedCount
        = some (mergeTable df st.destRows).length
    ∧ (upload_with_merge noFaults df st).1.stagingExists = false := by
  cases df with
  | nil => exact absurd rfl h
  | cons a l =>
    simp [upload_with_merge, upload_with_merge_try, ensure_dataset_exists,
      ensure_table_exists, create_temp_table, execute_merge, noFaults]

/-- When `_execute_merge` returns normally, the staging table has been
deleted and in particular the final staging deletion did not fault. -/
theorem execute_merge_ok_facts {α : Type} [DecidableEq α] {fl : Faults}
    {st : Store α} {n : Nat} (h : (execute_merge fl st).2 = Except.ok n) :
    (execute_merge fl st).1.stagingExists = false ∧ fl.cleanup_fault = false := by
  cases hm : fl.merge_fault <;> cases hg : fl.get_table_fault <;>
    cases hc : fl.cleanup_fault <;> simp_all [execute_merge]

/-- The final store of `upload_with_merge` is the final store of its
try-block, whatever the outcome. -/
theorem upload_state_eq_try {α : Type} [DecidableEq α] (fl : Faults)
    (df : List (Row α)) (st : Store α) :
    (upload_with_merge fl df st).1 = (upload_with_merge_try fl df st).1 := by
  unfold upload_with_merge
  cases upload_with_merge_try fl df st with
  | mk st1 r => cases r <;> rfl

/-- `upload_with_merge` returns `true` only when its try-block ran to
the end and returned `true`. -/
theorem upload_true_try {α : Type} [DecidableEq α] {fl : Faults}
    {df : List (Row α)} {st : Store α}
    (h : (upload_with_merge fl df st).2 = true) :
    (upload_with_merge_try fl df st).2 = Except.ok true := by
  unfold upload_with_merge at h
  cases ht : upload_with_merge_try fl df st with
  | mk st1 r =>
    rw [ht] at h
    cases r with
    | error e => simp at h
    | ok b =>
      simp only at h
      rw [h]

/-- When the try-block of `upload_with_merge` returns `true`, the run
went through `_execute_merge`'s normal exit: the staging table is gone
and the final staging deletion did not fault. -/
theorem upload_try_ok_true_facts {α : Type} [DecidableEq α] {fl : Faults}
    {df : List (Row α)} {st : Store α}
    (h : (upload_with_merge_try fl df st).2 = Except.ok true) :
    (upload_with_merge_try fl df st).1.stagingExists = false
    ∧ fl.cleanup_fault = false := by
  cases H : upload_with_merge_try fl df st with
  | mk stf r =>
    rw [H] at h
    simp only at h
    subst h
    unfold upload_with_merge_try at H
    cases h1 : ensure_dataset_exists fl st with
    | mk st1 r1 =>
      rw [h1] at H
      cases r1 with
      | error e => simp at H
      | ok u =>
        cases u
        dsimp only at H
        cases h2 : ensure_table_exists fl st1 with
        | mk st2 r2 =>
          rw [h2] at H
          cases r2 with
          | error e => simp at H
          | ok u =>
            cases u
            dsimp only at H
            cases hde : df.isEmpty with
            | true => rw [hde] at H; simp at H
            | false =>
              rw [hde] at H
              simp only [Bool.false_eq_true, if_false] at H
              cases h3 : create_temp_table fl df st2 with
              | mk st3 r3 =>
                rw [h3] at H
                cases r3 with
                | error e => simp at H
                | ok u =>
                  cases u
                  dsimp only at H
                  cases h4 : execute_merge fl st3 with
                  | mk st4 r4 =>
                    rw [h4] at H
                    cases r4 with
                    | error e => simp at H
                    | ok n =>
                      dsimp only at H
                      have h4s : (execute_merge fl st3).2 = Except.ok n := by
                        rw [h4]
                      obtain ⟨hs, hc⟩ := execute_merge_ok_facts h4s
                      rw [h4] at hs
                      have hst : stf = { st4 with reportedCount := some n } := by
                        have := congrArg Prod.fst H
                        simpa using this.symm
                      refine ⟨?_, hc⟩
                      rw [hst]
                      exact hs

/-- Filtering a merged destination on a key that no staging row
carries sees exactly the original destination rows with that key. -/
theorem filter_map_mergeRow {α : Type} [DecidableEq α] (source : List (Row α))
    (k : String) (hk : ∀ s ∈ source, s.key ≠ k) :
    ∀ target : List (Row α),
      (target.map (mergeRow source)).filter (fun t => t.key == k)
        = target.filter (fun t => t.key == k) := by
  intro target
  induction target with
  | nil => rfl
  | cons t ts ih =>
    simp only [List.map_cons]
    by_cases ht : t.key = k
    · have hmr : mergeRow source t = t :=
        mergeRow_of_no_match (fun s hs he => hk s hs (he.trans ht))
      rw [hmr, List.filter_cons_of_pos, List.filter_cons_of_pos, ih]
      · simp [ht]
      · simp [ht]
    · have hmk : (mergeRow source t).key = t.key := mergeRow_key source t
      rw [List.filter_cons_of_neg, List.filter_cons_of_neg, ih]
      · simp [ht]
      · simp [hmk, ht]

/-! Claim theorems. -/

/-- Claim C1, counterexample: with a `MergeError` injected at the merge
statement, `upload_with_merge` on the non-empty batch `[row0]` creates
the staging table (the create call is in the log) and returns `false`,
yet the staging table still exists after the call — the claimed
all-exit-paths cleanup does not hold. -/
theorem upsert_cleanup_invariant_cex :
    RCall.createStaging ∈ (upload_with_merge onlyMergeFault [row0] store0).1.log
    ∧ (upload_with_merge onlyMergeFault [row0] store0).1.stagingExists = true
    ∧ (upload_with_merge onlyMergeFault [row0] store0).2 = false := by
  decide

/-- Claim C1, amended: cleanup of the staging table is guaranteed only
on the fully successful path — whenever `upload_with_merge` returns
`true`, the staging table does not exist afterwards. (When a
`MergeError` is injected at the merge step the staging table persists
past the call, as the counterexample shows.) -/
theorem upsert_staging_deleted_on_success {α : Type} [DecidableEq α]
    (fl : Faults) (df : List (Row α)) (st : Store α)
    (h : (upload_with_merge fl df st).2 = true) :
    (upload_with_merge fl df st).1.stagingExists = false := by
  rw [upload_state_eq_try fl df st]
  exact (upload_try_ok_true_facts (upload_true_try h)).1

theorem upsert_staging_deleted_on_success_witness :
    (upload_with_merge noFaults [row0] store0).1.stagingExists = false :=
  upsert_staging_deleted_on_success noFaults [row0] store0 (by decide)

/-- Claim C2, counterexample: `upload_with_merge` on the empty batch
returns `false`, not `true` as claimed — the local `success` flag is
initialized to `False` and the empty branch only logs a warning before
`return success`. -/
theorem empty_upsert_returns_false_cex :
    (upload_with_merge noFaults ([] : List (Row Int)) store0).2 = false := by
  decide

/-- Claim C2, amended: on an empty batch both paths return `false`:
`upload_with_merge` returns `false` without issuing any staging-create,
staging-load, merge or destination-load call, and `append_data` also
returns `false` without issuing a load call — there is no
true-vs-false asymmetry between the two paths of this loader. -/
theorem empty_batch_both_paths_false {α : Type} [DecidableEq α]
    (fl : Faults) (st : Store α) :
    (upload_with_merge fl ([] : List (Row α)) st).2 = false
    ∧ (upload_with_merge fl ([] : List (Row α)) st).1.log = st.log
    ∧ (append_data fl ([] : List (Row α)) st).2 = false
    ∧ (append_data fl ([] : List (Row α)) st).1.log = st.log := by
  cases h1 : fl.ensure_dataset_fault <;> cases h2 : fl.ensure_table_fault <;>
    simp [upload_with_merge, upload_with_merge_try, append_data, append_data_try,
      ensure_dataset_exists, ensure_table_exists, h1, h2]

/-- Claim C3: a fault-free upsert of a non-empty batch with pairwise
distinct keys into an empty destination succeeds, leaves the
destination equal to the batch — in particular exactly one row per
batch key, carrying the batch record's values — and the reported row
count equals the batch size. -/
theorem upsert_insert_only_convergence {α : Type} [DecidableEq α]
    (df : List (Row α)) (st : Store α) (hne : df ≠ [])
    (hnd : (df.map Row.key).Nodup) (hdest : st.destRows = []) :
    (upload_with_merge noFaults df st).2 = true
    ∧ (upload_with_merge noFaults df st).1.destRows = df
    ∧ (upload_with_merge noFaults df st).1.reportedCount = some df.length
    ∧ ∀ r ∈ df, ((upload_with_merge noFaults df st).1.destRows.filter
        (fun x => x.key == r.key)) = [r] := by
  obtain ⟨h1, h2, h3, _⟩ := upload_with_merge_noFaults_run df st hne
  rw [hdest, mergeTable_nil_target] at h2 h3
  refine ⟨h1, h2, h3, ?_⟩
  intro r hr
  rw [h2]
  exact filter_key_of_nodup df r hnd hr

theorem upsert_insert_only_convergence_witness :
    (upload_with_merge noFaults [row0] store0).2 = true
    ∧ (upload_with_merge noFaults [row0] store0).1.destRows = [row0] :=
  ⟨(upsert_insert_only_convergence [row0] store0 (by decide) (by decide) rfl).1,
   (upsert_insert_only_convergence [row0] store0 (by decide) (by decide) rfl).2.1⟩

/-- Claim C4: upsert is idempotent on the destination — re-running a
fault-free `upload_with_merge` with the same batch (pairwise-distinct
keys, per the data model's batch precondition) leaves every destination
row and the destination row count unchanged: the matched-and-equal
rows trigger no update and no duplicate row is inserted. -/
theorem upsert_idempotent {α : Type} [DecidableEq α] (df : List (Row α))
    (st : Store α) (hnd : (df.map Row.key).Nodup) :
    (upload_with_merge noFaults df (upload_with_merge noFaults df st).1).1.destRows
      = (upload_with_merge noFaults df st).1.destRows
    ∧ (upload_with_merge noFaults df (upload_with_merge noFaults df st).1).1.destRows.length
      = (upload_with_merge noFaults df st).1.destRows.length := by
  by_cases hne : df = []
  · subst hne
    have hid : ∀ s : Store α, (upload_with_merge noFaults ([] : List (Row α)) s).1 = s := by
      intro s
      simp [upload_with_merge, upload_with_merge_try, ensure_dataset_exists,
        ensure_table_exists, noFaults]
    simp [hid]
  · obtain ⟨_, h2, _, _⟩ := upload_with_merge_noFaults_run df st hne
    obtain ⟨_, h2', _, _⟩ :=
      upload_with_merge_noFaults_run df (upload_with_merge noFaults df st).1 hne
    have hrows : (upload_with_merge noFaults df
        (upload_with_merge noFaults df st).1).1.destRows
        = (upload_with_merge noFaults df st).1.destRows := by
      rw [h2', h2]
      exact mergeTable_idem df st.destRows hnd
    exact ⟨hrows, congrArg List.length hrows⟩

theorem upsert_idempotent_witness :
    (upload_with_merge noFaults [row0] (upload_with_merge noFaults [row0] store0).1).1.destRows
      = (upload_with_merge noFaults [row0] store0).1.destRows :=
  (upsert_idempotent [row0] store0 (by decide)).1

/-- Claim C5: evaluation of the merge's matched-row comparison at the
failing input. Two NULLs in a column compare as unknown, so a row whose
only candidate difference is NULL-vs-NULL is not updated (the claim's
first half holds); but NULL compared against a non-NULL value also
yields unknown, not true, so a destination row whose population is NULL
is NOT updated by a staging row carrying the value 2148271 — contrary
to the claim's (and the spec's) second half. -/
theorem merge_null_comparison_behavior :
    matchCond [(none : Cell Int)] [some (2148271 : Int)] = TV.u
    ∧ mergeRow [⟨"Paris", [some (2148271 : Int)]⟩] ⟨"Paris", [(none : Cell Int)]⟩
        = ⟨"Paris", [(none : Cell Int)]⟩
    ∧ mergeRow [⟨"Paris", [(none : Cell Int)]⟩] ⟨"Paris", [(none : Cell Int)]⟩
        = ⟨"Paris", [(none : Cell Int)]⟩ := by
  decide

/-- Claim C6, counterexample: with an arbitrary (non-not-found) error
injected at the initial staging-table deletion, `_create_temp_table`
still returns normally and the surrounding upsert succeeds — the error
is swallowed, not propagated to the caller as the claim states. -/
theorem staging_delete_error_swallowed_cex :
    (create_temp_table onlyDeleteTempFault [row0] store0).2 = Except.ok ()
    ∧ (upload_with_merge onlyDeleteTempFault [row0] store0).2 = true := by
  constructor
  · rfl
  · decide

/-- Claim C6, amended: the initial deletion's errors are all swallowed
— absence of the table and any other deletion failure alike — and
execution always continues to the staging-create call; no deletion
error is ever propagated. (If the swallowed failure left a staging
table in place, the subsequent create call is what fails.) -/
theorem staging_delete_errors_never_propagate {α : Type} [DecidableEq α]
    (fl : Faults) (df : List (Row α)) (st : Store α)
    (hse : st.stagingExists = false) (hc : fl.create_temp_fault = false)
    (hl : fl.load_temp_fault = false) :
    (create_temp_table fl df st).2 = Except.ok ()
    ∧ RCall.createStaging ∈ (create_temp_table fl df st).1.log := by
  cases hd : fl.delete_temp_fault <;>
    simp [create_temp_table, hd, hc, hl, hse]

theorem staging_delete_errors_never_propagate_witness :
    (create_temp_table onlyDeleteTempFault [row0] store0).2 = Except.ok ()
    ∧ RCall.createStaging ∈ (create_temp_table onlyDeleteTempFault [row0] store0).1.log :=
  staging_delete_errors_never_propagate onlyDeleteTempFault [row0] store0 rfl rfl rfl

/-- Claim C7, counterexample: with a failure injected only at the final
staging-table deletion, the merge statement completes (the merge call
is in the log and the destination now holds the batch row), yet
`upload_with_merge` returns `false` — the cleanup failure does change
the verdict, contrary to the claim. -/
theorem cleanup_failure_flips_verdict_cex :
    RCall.mergeStmt ∈ (upload_with_merge onlyCleanupFault [row0] store0).1.log
    ∧ (upload_with_merge onlyCleanupFault [row0] store0).1.destRows = [row0]
    ∧ (upload_with_merge onlyCleanupFault [row0] store0).2 = false := by
  decide

/-- Claim C7, amended: the staging deletion happens inside the merge
step before `success` is set, so a failing cleanup always makes
`upload_with_merge` return `false`, even when the merge statement
itself completed successfully. -/
theorem cleanup_failure_returns_false {α : Type} [DecidableEq α]
    (fl : Faults) (df : List (Row α)) (st : Store α)
    (hc : fl.cleanup_fault = true) :
    (upload_with_merge fl df st).2 = false := by
  cases hb : (upload_with_merge fl df st).2 with
  | false => rfl
  | true =>
    exfalso
    have h2 := (upload_try_ok_true_facts (upload_true_try hb)).2
    rw [hc] at h2
    exact Bool.noConfusion h2

theorem cleanup_failure_returns_false_witness :
    (upload_with_merge onlyCleanupFault [row0] store0).2 = false :=
  cleanup_failure_returns_false onlyCleanupFault [row0] store0 rfl

/-- Claim C8: the merge never touches destination rows whose key
appears in no staging row — filtering the merged destination on any
key carried by no staging row yields exactly the original rows with
that key, values included — and the merge never deletes a destination
row (the destination can only grow). A batch that changes one field of
key K therefore changes only K's row. -/
theorem merge_frame_property {α : Type} [DecidableEq α]
    (source target : List (Row α)) (k : String)
    (hk : ∀ s ∈ source, s.key ≠ k) :
    (mergeTable source target).filter (fun t => t.key == k)
      = target.filter (fun t => t.key == k)
    ∧ target.length ≤ (mergeTable source target).length := by
  constructor
  · have hout : mergeTable source target
        = target.map (mergeRow source)
          ++ source.filter (fun s => target.all (fun t => !(t.key == s.key))) := rfl
    rw [hout, List.filter_append]
    have hins : (source.filter
        (fun s => target.all (fun t => !(t.key == s.key)))).filter
          (fun t => t.key == k) = [] := by
      apply List.filter_eq_nil_iff.mpr
      intro s hs
      have hsk : s.key ≠ k := hk s (List.mem_of_mem_filter hs)
      simp [hsk]
    rw [hins, List.append_nil]
    exact filter_map_mergeRow source k hk target
  · have hout : mergeTable source target
        = target.map (mergeRow source)
          ++ source.filter (fun s => target.all (fun t => !(t.key == s.key))) := rfl
    rw [hout, List.length_append, List.length_map]
    exact Nat.le_add_right _ _

theorem merge_frame_property_witness :
    (mergeTable [row0] [rowB]).filter (fun t => t.key == "Berlin")
      = [rowB].filter (fun t => t.key == "Berlin")
    ∧ [rowB].length ≤ (mergeTable [row0] [rowB]).length :=
  merge_frame_property [row0] [rowB] "Berlin" (by decide)

/-- Claim C9, counterexample: not every remote-store error is
converted to `false` — with an error injected at the initial
staging-table deletion (a remote-store call, and the only fault of the
run), the deletion call was issued and faulted, yet
`upload_with_merge` returns `true`, not `false` as the claim
requires for every error at any step. -/
theorem swallowed_error_returns_true_cex :
    onlyDeleteTempFault.delete_temp_fault = true
    ∧ RCall.deleteStaging ∈ (upload_with_merge onlyDeleteTempFault [row0] store0).1.log
    ∧ (upload_with_merge onlyDeleteTempFault [row0] store0).2 = true := by
  decide

/-- Claim C9, amended: every error that escapes a loader step — i.e.
reaches the orchestrator's `except` block — is caught there and
converted to the boolean `false`, for both `upload_with_merge` and
`append_data`; the caller observes only `true` or `false`, never a
propagated exception. (The initial staging-delete error is swallowed
inside `_create_temp_table` and never reaches the orchestrator, so it
does not force a `false` verdict, as the counterexample shows.) -/
theorem orchestrator_errors_become_false {α : Type} [DecidableEq α]
    (fl : Faults) (df : List (Row α)) (st : Store α) (e : Err) :
    ((upload_with_merge_try fl df st).2 = Except.error e →
      (upload_with_merge fl df st).2 = false)
    ∧ ((append_data_try fl df st).2 = Except.error e →
      (append_data fl df st).2 = false) := by
  constructor
  · intro h
    unfold upload_with_merge
    cases ht : upload_with_merge_try fl df st with
    | mk st1 r =>
      rw [ht] at h
      cases r with
      | error e2 => rfl
      | ok b => simp at h
  · intro h
    unfold append_data
    cases ht : append_data_try fl df st with
    | mk st1 r =>
      rw [ht] at h
      cases r with
      | error e2 => rfl
      | ok b => simp at h

theorem orchestrator_errors_become_false_witness :
    (upload_with_merge onlyMergeFault [row0] store0).2 = false
    ∧ (append_data onlyLoadDestFault [row0] store0).2 = false :=
  ⟨(orchestrator_errors_become_false onlyMergeFault [row0] store0 Err.mergeErr).1
      rfl,
   (orchestrator_errors_become_false onlyLoadDestFault [row0] store0 Err.loadErr).2
      rfl⟩

/-- Claim C10: the weather pipeline's `load_dataframe` returns `true`
on a `None` or empty DataFrame without issuing any load job, while the
scraping pipeline's append path (`append_data`) returns `false` on an
empty batch — the two pipelines give opposite empty-input verdicts. -/
theorem weather_empty_input_verdict {ρ α : Type} [DecidableEq α]
    (fl : WeatherFaults) (flc : Faults) (st : Store α) :
    load_dataframe fl (none : Option (List ρ)) = ⟨true, false⟩
    ∧ load_dataframe fl (some ([] : List ρ)) = ⟨true, false⟩
    ∧ (append_data flc ([] : List (Row α)) st).2 = false := by
  refine ⟨rfl, rfl, ?_⟩
  cases h1 : flc.ensure_dataset_fault <;> cases h2 : flc.ensure_table_fault <;>
    simp [append_data, append_data_try, ensure_dataset_exists,
      ensure_table_exists, h1, h2]

end TravelData
